import Mathlib

/-!
Shallow embedding of the DVI Modbus/MQTT bridge (src/bridge.py).

Python dictionaries are modelled as association lists `List (κ × α)`;
`dict(sorted(d.items()))` becomes an insertion sort by key.  Register and
byte values are `Nat`; scaled sensor values are exact rationals `ℚ`
(Python floats are exact on every value exercised here).  I/O is modelled
by explicit oracles: a coil read carries its raw response frame as
`Option (List Nat)` (`none` = transport failure), register reads and
echo reads are oracles `Nat → Option Nat`.
-/

namespace DVIBridge

/-- Lookup by key in an association list, mirroring Python `dict.get`. -/
def lookupKey {κ α : Type} [DecidableEq κ] (k : κ) : List (κ × α) → Option α
  | [] => none
  | (k', v) :: rest => if k' = k then some v else lookupKey k rest

/-- Replace-or-append update, mirroring Python `d[k] = v`. -/
def setKey {κ α : Type} [DecidableEq κ] (k : κ) (v : α) : List (κ × α) → List (κ × α)
  | [] => [(k, v)]
  | (k', v') :: rest => if k' = k then (k, v) :: rest else (k', v') :: setKey k v rest

/-- Lexicographic comparison of character lists by code point, the order
Python uses on strings. -/
def charListLt : List Char → List Char → Bool
  | [], [] => false
  | [], _ :: _ => true
  | _ :: _, [] => false
  | a :: as, b :: bs =>
    if a.toNat < b.toNat then true
    else if b.toNat < a.toNat then false
    else charListLt as bs

/-- Python string comparison `a < b`. -/
def strLt (a b : String) : Bool :=
  charListLt a.data b.data

/-- Insert a pair into a key-sorted association list. -/
def insertSorted {α : Type} (p : String × α) : List (String × α) → List (String × α)
  | [] => [p]
  | q :: rest => if strLt q.1 p.1 then q :: insertSorted p rest else p :: q :: rest

/-- Sort an association list by key, mirroring Python `dict(sorted(d.items()))`
(keys are unique in every use). -/
def sortByKey {α : Type} (l : List (String × α)) : List (String × α) :=
  l.foldr insertSorted []

/-- Python `round` on an exact rational: round half to even. -/
def pyRound (q : ℚ) : ℤ :=
  let f : ℤ := ⌊q⌋
  let frac : ℚ := q - f
  if frac < 1/2 then f
  else if 1/2 < frac then f + 1
  else if f % 2 = 0 then f else f + 1

/-- Python `round(q, d)` on an exact rational. -/
def roundTo (q : ℚ) (d : ℕ) : ℚ :=
  (pyRound (q * 10 ^ d) : ℚ) / 10 ^ d

/-- Coil mapping of the schema (coil 13 omitted), from `coil_names`. -/
def coil_names : List (Nat × String) :=
  [(0, "Soft starter Compressor"),
   (1, "3-Way shunt VV open/close"),
   (2, "Start/stop expansion valve"),
   (3, "Heating element"),
   (4, "Circ. pump warm side"),
   (5, "El-tracing CV/drain"),
   (8, "4-way valve defrost"),
   (9, "Liquid injection solenoid valve"),
   (10, "3-way shunt CV open"),
   (11, "3-way shunt CV close"),
   (12, "Circ. pump CV"),
   (14, "Sum alarm failure")]

/-- FC04 sensor keys excluded from publication, from `omit_fc04`. -/
def omit_fc04 : List String :=
  ["sensor_4", "sensor_8", "sensor_9", "sensor_10", "sensor_13", "sensor_14"]

/-- FC04 sensor key → human label table, from `fc04_labels`. -/
def fc04_labels : List (String × String) :=
  [("sensor_1", "CV Forward"),
   ("sensor_2", "CV Return"),
   ("sensor_3", "Storage tank VV"),
   ("sensor_5", "Storage tank CV"),
   ("sensor_6", "Evaporator"),
   ("sensor_7", "Outdoor"),
   ("sensor_11", "Compressor HP"),
   ("sensor_12", "Compressor LP")]

/-- Command topic → (register, scale) table, from `command_map`. -/
def command_map : List (String × (Nat × Int)) :=
  [("dvi/command/vvstate", (0x10A, 1)),
   ("dvi/command/cvstate", (0x101, 1)),
   ("dvi/command/cvcurve", (0x102, 1)),
   ("dvi/command/vvsetpoint", (0x10B, 1)),
   ("dvi/command/tvstate", (0x10F, 1))]

/-- Echo-read register → label table, from `fc06_registers` in the main loop. -/
def fc06_registers : List (Nat × String) :=
  [(0x01, "cv_mode"),
   (0x02, "cv_curve"),
   (0x03, "cv_setpoint"),
   (0x04, "cv_night_setback"),
   (0x0A, "vv_mode"),
   (0x0B, "vv_setpoint"),
   (0x0C, "vv_schedule"),
   (0x0F, "aux_heating"),
   (0xA1, "comp_hours"),
   (0xA2, "vv_hours"),
   (0xA3, "heating_hours"),
   (0xD0, "curve_temp")]

/-- Echo-read adjustment table: register → (multiplier, decimals), from
`fc06_adjustments`. -/
def fc06_adjustments : List (Nat × (ℚ × ℕ)) :=
  [(0xD0, (0.1, 1))]

/-- The 16-bit mask reassembled from a coil-read response:
`(response[2] << 8) | response[1]`. -/
def coilMask (resp : List Nat) : Nat :=
  ((resp.getD 2 0) <<< 8) ||| resp.getD 1 0

/-- Bit `i` of the coil mask: `(bitmask >> i) & 1`. -/
def coilBit (resp : List Nat) (i : Nat) : Nat :=
  ((coilMask resp) >>> i) &&& 1

/-- The `read_coils` wrapper.  `response` is the raw FC01 response frame,
`none` when the underlying transaction raised.  On a malformed frame
(`len(response) < 3 or response[0] != 2`) or transport failure the wrapper
returns the empty mapping (Python `return {}` in the `except` arm). -/
def read_coils (response : Option (List Nat)) : List (String × Nat) :=
  match response with
  | none => []
  | some resp =>
    if resp.length < 3 ∨ resp.getD 0 0 ≠ 2 then []
    else sortByKey (coil_names.map fun p => (p.2, coilBit resp p.1))

/-- Does the coil read take the failure path (transport error or malformed
frame)?  This is the exact complement of the success guard in `read_coils`. -/
def coilReadFails (response : Option (List Nat)) : Prop :=
  match response with
  | none => True
  | some resp => resp.length < 3 ∨ resp.getD 0 0 ≠ 2

instance (response : Option (List Nat)) : Decidable (coilReadFails response) := by
  unfold coilReadFails
  cases response <;> infer_instance

/-- Big-endian 16-bit word to two bytes, as `struct.pack('>H', w)`. -/
def pack16 (w : Nat) : List Nat :=
  [w / 256 % 256, w % 256]

/-- Big-endian 16-bit word read out of bytes `i, i+1` of a frame, as
`struct.unpack('>H', ...)`. -/
def unpack16at (resp : List Nat) (i : Nat) : Nat :=
  256 * resp.getD i 0 + resp.getD (i + 1) 0

/-- The FC06 echo-read request: function code 6, payload
`struct.pack('>HH', register, 0x0000)` from `read_via_fc06`. -/
def fc06Request (register : Nat) : Nat × List Nat :=
  (6, pack16 register ++ pack16 0x0000)

/-- The `read_via_fc06` wrapper: parse the echoed reply `struct.unpack('>HH', response)`
and return the second word; any failure (transport, or a reply that is not
exactly 4 bytes) yields `none`. -/
def read_via_fc06 (response : Option (List Nat)) : Option Nat :=
  match response with
  | none => none
  | some resp =>
    if resp.length = 4 then some (unpack16at resp 2) else none

/-- Decimal digit run parser: `some n` iff the character list is a nonempty
run of ASCII digits with value `n`. -/
def parseNatDigits (cs : List Char) : Option Nat :=
  cs.foldl
    (fun acc c =>
      match acc with
      | some n => if c.isDigit then some (n * 10 + (c.toNat - 48)) else none
      | none => none)
    (if cs.isEmpty then none else some 0)

/-- Python `str.strip()`: drop leading and trailing whitespace. -/
def pyStrip (s : String) : String :=
  ⟨((s.data.dropWhile Char.isWhitespace).reverse.dropWhile Char.isWhitespace).reverse⟩

/-- Python `int(s)` on an already-stripped string, for optionally signed
decimal literals (the only payload form the bridge's channels carry). -/
def parsePyInt (s : String) : Option Int :=
  match s.data with
  | '-' :: rest => (parseNatDigits rest).map fun n => -(n : Int)
  | '+' :: rest => (parseNatDigits rest).map fun n => (n : Int)
  | cs => (parseNatDigits cs).map fun n => (n : Int)

/-- One FC06 write-single-register transaction issued by the dispatcher. -/
structure WriteCmd where
  register : Nat
  value : Int
deriving DecidableEq, Repr

/-- Observable outcome of one inbound message: the writes performed and
whether a handling failure was reported. -/
structure MsgResult where
  writes : List WriteCmd
  errorReported : Bool
deriving DecidableEq, Repr

/-- The `on_message` MQTT callback: look the topic up in `command_map`
(absent → silently return), parse the stripped payload as an integer
(failure → caught, reported, no write), scale it and perform exactly one
`write_register`. -/
def on_message (topic : String) (payload : String) : MsgResult :=
  let payload_str := pyStrip payload
  match lookupKey topic command_map with
  | none => ⟨[], false⟩
  | some cfg =>
    match parsePyInt payload_str with
    | none => ⟨[], true⟩
    | some value_raw => ⟨[⟨cfg.1, value_raw * cfg.2⟩], false⟩

/-- FC04 sensor key `f"sensor_{reg}"`. -/
def sensorKey (reg : Nat) : String :=
  "sensor_" ++ toString reg

/-- The label for a sensor key: `fc04_labels.get(key, key)`. -/
def fc04LabelOf (key : String) : String :=
  (lookupKey key fc04_labels).getD key

/-- Registers polled by the fast group: `range(0x01, 0x0F)`. -/
def fc04_polled : List Nat :=
  List.range' 1 14

/-- The `fc04_raw` dictionary of one fast-group cycle: every polled register
that answered, keyed by its sensor key, in polling order. -/
def fc04_raw (reads : Nat → Option Nat) : List (String × Nat) :=
  fc04_polled.filterMap fun reg => (reads reg).map fun v => (sensorKey reg, v)

/-- One step of the fast-group merge: skip keys in `omit_fc04`, otherwise
store `round(raw * 0.1, 1)` under the label. -/
def fc04Update (acc : List (String × ℚ)) (kv : String × Nat) : List (String × ℚ) :=
  if kv.1 ∈ omit_fc04 then acc
  else setKey (fc04LabelOf kv.1) (roundTo ((kv.2 : ℚ) * 0.1) 1) acc

/-- The whole fast-register group body: poll registers 0x01–0x0E, merge the
scaled non-omitted values into the inputs cache, then read the EM23 power
register 0x24 and store `round(power * 0.0001, 4)`. -/
def fc04Step (reads : Nat → Option Nat) (inputs : List (String × ℚ)) :
    List (String × ℚ) :=
  let inputs1 := (fc04_raw reads).foldl fc04Update inputs
  match reads 0x24 with
  | some power => setKey "em23_power" (roundTo ((power : ℚ) * 0.0001) 4) inputs1
  | none => inputs1

/-- Value stored for an echo-read register: apply the `fc06_adjustments`
entry when one exists, else store the raw word unchanged. -/
def adjustVal (reg : Nat) (v : Nat) : ℚ :=
  match lookupKey reg fc06_adjustments with
  | some a => roundTo ((v : ℚ) * a.1) a.2
  | none => (v : ℚ)

/-- One step of the slow-group echo-read merge. -/
def fc06Apply (echo : Nat → Option Nat) (acc : List (String × ℚ)) (p : Nat × String) :
    List (String × ℚ) :=
  match echo p.1 with
  | some v => setKey p.2 (adjustVal p.1 v) acc
  | none => acc

/-- The slow-misc group body: read the two EM23 energy words 0x25 (high) and
0x26 (low), and when both answer store `round(((msw << 16) + lsw) * 0.1, 1)`;
then echo-read every `fc06_registers` entry.  Returns the updated
(inputs, writes) caches. -/
def miscStep (reads echo : Nat → Option Nat)
    (inputs writes : List (String × ℚ)) :
    List (String × ℚ) × List (String × ℚ) :=
  let inputs1 :=
    match reads 0x25, reads 0x26 with
    | some msw, some lsw =>
        setKey "em23_energy" (roundTo ((((msw <<< 16) + lsw : Nat) : ℚ) * 0.1) 1) inputs
    | _, _ => inputs
  let writes1 := fc06_registers.foldl (fc06Apply echo) writes
  (inputs1, writes1)

/-- The JSON snapshot assembled each tick (`full_payload`). -/
structure Payload where
  coils : List (String × Nat)
  input_registers : List (String × ℚ)
  write_registers : List (String × ℚ)
deriving DecidableEq, Repr

/-- Snapshot assembly: coils are already sorted, the two register caches are
sorted at assembly time. -/
def assemblePayload (coils : List (String × Nat))
    (inputs writes : List (String × ℚ)) : Payload :=
  ⟨coils, sortByKey inputs, sortByKey writes⟩

/-- The change-detection publisher: transmit iff the snapshot differs from
the last published state (`full_payload != last_published`, with
`last_published = None` on first run), then record it.  Returns
(transmitted?, new last-published state). -/
def publishStep (last : Option Payload) (p : Payload) : Bool × Option Payload :=
  if some p ≠ last then (true, some p) else (false, last)

/-- The mutable state of the main loop: the three group timers, the three
caches and the last published snapshot. -/
structure LoopState where
  last_coil_update : ℚ
  last_fc04_update : ℚ
  last_misc_update : ℚ
  last_coils : List (String × Nat)
  last_inputs : List (String × ℚ)
  last_writes : List (String × ℚ)
  last_published : Option Payload

/-- The environment of one tick: the wall-clock reading `now` and the
device's behaviour during this tick (coil response frame, FC04 register
reads, FC06 echo reads). -/
structure TickEnv where
  now : ℚ
  coilResponse : Option (List Nat)
  reads : Nat → Option Nat
  echo : Nat → Option Nat

/-- One iteration of the main `while True` loop: run each group whose
interval has elapsed (coils 13 s, fast registers 17 s, slow misc 60 s),
advance its timer, assemble the snapshot and run the publisher.  Returns
the next state and whether a publish happened this tick. -/
def tick (s : LoopState) (e : TickEnv) : LoopState × Bool :=
  let s1 :=
    if 13 ≤ e.now - s.last_coil_update then
      { s with last_coils := sortByKey (read_coils e.coilResponse),
               last_coil_update := e.now }
    else s
  let s2 :=
    if 17 ≤ e.now - s1.last_fc04_update then
      { s1 with last_inputs := fc04Step e.reads s1.last_inputs,
                last_fc04_update := e.now }
    else s1
  let s3 :=
    if 60 ≤ e.now - s2.last_misc_update then
      { s2 with last_inputs := (miscStep e.reads e.echo s2.last_inputs s2.last_writes).1,
                last_writes := (miscStep e.reads e.echo s2.last_inputs s2.last_writes).2,
                last_misc_update := e.now }
    else s2
  let payload := assemblePayload s3.last_coils s3.last_inputs s3.last_writes
  let pub := publishStep s3.last_published payload
  ({ s3 with last_published := pub.2 }, pub.1)

/-- Firing times of a single interval-gated group over a list of tick clock
readings: fire when `interval ≤ t - last`, then reset `last` to `t`. -/
def schedTimes (interval : ℚ) (last : ℚ) : List ℚ → List ℚ
  | [] => []
  | t :: ts =>
    if interval ≤ t - last then t :: schedTimes interval t ts
    else schedTimes interval last ts

/-- Clock times at which the coil group runs over a trace of ticks. -/
def coilFireTimes (s : LoopState) : List TickEnv → List ℚ
  | [] => []
  | e :: tr =>
    if 13 ≤ e.now - s.last_coil_update then e.now :: coilFireTimes (tick s e).1 tr
    else coilFireTimes (tick s e).1 tr

/-- Clock times at which the fast-register group runs over a trace of ticks. -/
def fc04FireTimes (s : LoopState) : List TickEnv → List ℚ
  | [] => []
  | e :: tr =>
    if 17 ≤ e.now - s.last_fc04_update then e.now :: fc04FireTimes (tick s e).1 tr
    else fc04FireTimes (tick s e).1 tr

/-- Clock times at which the slow-misc group runs over a trace of ticks. -/
def miscFireTimes (s : LoopState) : List TickEnv → List ℚ
  | [] => []
  | e :: tr =>
    if 60 ≤ e.now - s.last_misc_update then e.now :: miscFireTimes (tick s e).1 tr
    else miscFireTimes (tick s e).1 tr

/-! Helper lemmas about the embedding. -/

lemma lookupKey_setKey_self {κ α : Type} [DecidableEq κ] (k : κ) (v : α)
    (l : List (κ × α)) : lookupKey k (setKey k v l) = some v := by
  induction l with
  | nil => simp [setKey, lookupKey]
  | cons p rest ih =>
    obtain ⟨k', v'⟩ := p
    by_cases h : k' = k
    · subst h
      simp [setKey, lookupKey]
    · simp [setKey, lookupKey, h, ih]

lemma lookupKey_setKey_ne {κ α : Type} [DecidableEq κ] (k k' : κ) (v : α)
    (l : List (κ × α)) (h : k' ≠ k) :
    lookupKey k (setKey k' v l) = lookupKey k l := by
  induction l with
  | nil => simp [setKey, lookupKey, h]
  | cons p rest ih =>
    obtain ⟨k'', v''⟩ := p
    by_cases h2 : k'' = k'
    · subst h2
      simp [setKey, lookupKey, h]
    · simp [setKey, lookupKey, h2, ih]

lemma pyRound_intCast (n : ℤ) : pyRound (n : ℚ) = n := by
  unfold pyRound
  norm_num

lemma roundTo_eq (q : ℚ) (d : ℕ) (n : ℤ) (h : q * 10 ^ d = (n : ℚ)) :
    roundTo q d = (n : ℚ) / 10 ^ d := by
  unfold roundTo
  rw [h, pyRound_intCast]

/-- On a well-formed frame `read_coils` returns the label-sorted decode of the
mask bits. -/
lemma read_coils_wf (resp : List Nat) (h3 : 3 ≤ resp.length) (h0 : resp.getD 0 0 = 2) :
    read_coils (some resp) =
      [("3-Way shunt VV open/close", coilBit resp 1),
       ("3-way shunt CV close", coilBit resp 11),
       ("3-way shunt CV open", coilBit resp 10),
       ("4-way valve defrost", coilBit resp 8),
       ("Circ. pump CV", coilBit resp 12),
       ("Circ. pump warm side", coilBit resp 4),
       ("El-tracing CV/drain", coilBit resp 5),
       ("Heating element", coilBit resp 3),
       ("Liquid injection solenoid valve", coilBit resp 9),
       ("Soft starter Compressor", coilBit resp 0),
       ("Start/stop expansion valve", coilBit resp 2),
       ("Sum alarm failure", coilBit resp 14)] := by
  simp only [read_coils]
  rw [if_neg]
  · rfl
  · push_neg
    exact ⟨by omega, h0⟩

lemma coilBit_le_one (resp : List Nat) (i : Nat) :
    coilBit resp i = 0 ∨ coilBit resp i = 1 := by
  unfold coilBit
  rw [Nat.and_one_is_mod]
  omega

/-! Lemmas about the FC06 echo-read fold of the slow group. -/

lemma fc06_fold_preserve (echo : Nat → Option Nat) (lbl : String) :
    ∀ (l : List (Nat × String)) (acc : List (String × ℚ)),
      (∀ p ∈ l, p.2 ≠ lbl) →
      lookupKey lbl (l.foldl (fc06Apply echo) acc) = lookupKey lbl acc
  | [], acc, _ => rfl
  | p :: rest, acc, h => by
    rw [List.foldl_cons, fc06_fold_preserve echo lbl rest _ fun q hq => h q (by simp [hq])]
    unfold fc06Apply
    cases echo p.1 with
    | none => rfl
    | some v => exact lookupKey_setKey_ne _ _ _ _ (h p (by simp))

lemma fc06_fold_lookup (echo : Nat → Option Nat) :
    ∀ (l : List (Nat × String)) (acc : List (String × ℚ)) (reg : Nat) (lbl : String)
      (w : Nat), (reg, lbl) ∈ l → (l.map Prod.snd).Nodup → echo reg = some w →
      lookupKey lbl (l.foldl (fc06Apply echo) acc) = some (adjustVal reg w)
  | [], _, _, _, _, hmem, _, _ => by simp at hmem
  | p :: rest, acc, reg, lbl, w, hmem, hnodup, hecho => by
    rw [List.foldl_cons]
    simp only [List.map_cons] at hnodup
    rcases List.mem_cons.1 hmem with heq | hrest
    · subst heq
      have hn : lbl ∉ rest.map Prod.snd := (List.nodup_cons.1 hnodup).1
      have hrest2 : ∀ q ∈ rest, q.2 ≠ lbl := fun q hq hql =>
        hn (hql ▸ List.mem_map_of_mem Prod.snd hq)
      rw [fc06_fold_preserve echo lbl rest _ hrest2]
      unfold fc06Apply
      dsimp only
      rw [hecho]
      exact lookupKey_setKey_self _ _ _
    · exact fc06_fold_lookup echo rest _ reg lbl w hrest
        (List.nodup_cons.1 hnodup).2 hecho

/-! Lemmas about the FC04 fast-group fold. -/

lemma fc04_fold_preserve (lbl : String) :
    ∀ (l : List (String × Nat)) (acc : List (String × ℚ)),
      (∀ kv ∈ l, kv.1 ∈ omit_fc04 ∨ fc04LabelOf kv.1 ≠ lbl) →
      lookupKey lbl (l.foldl fc04Update acc) = lookupKey lbl acc
  | [], acc, _ => rfl
  | kv :: rest, acc, h => by
    rw [List.foldl_cons, fc04_fold_preserve lbl rest _ fun q hq => h q (by simp [hq])]
    unfold fc04Update
    by_cases homit : kv.1 ∈ omit_fc04
    · rw [if_pos homit]
    · rw [if_neg homit]
      exact lookupKey_setKey_ne _ _ _ _ ((h kv (by simp)).resolve_left homit)

lemma fc04_fold_lookup :
    ∀ (l : List (String × Nat)) (acc : List (String × ℚ)) (k : String) (v : Nat),
      (k, v) ∈ l → k ∉ omit_fc04 → (l.map Prod.fst).Nodup →
      (∀ k2 ∈ l.map Prod.fst, k2 ≠ k → fc04LabelOf k2 ≠ fc04LabelOf k) →
      lookupKey (fc04LabelOf k) (l.foldl fc04Update acc)
        = some (roundTo ((v : ℚ) * 0.1) 1)
  | [], _, _, _, hmem, _, _, _ => by simp at hmem
  | kv :: rest, acc, k, v, hmem, hk, hnodup, hinj => by
    rw [List.foldl_cons]
    simp only [List.map_cons] at hnodup
    rcases List.mem_cons.1 hmem with heq | hrest
    · subst heq
      have hn : k ∉ rest.map Prod.fst := (List.nodup_cons.1 hnodup).1
      have hrest2 : ∀ q ∈ rest, q.1 ∈ omit_fc04 ∨ fc04LabelOf q.1 ≠ fc04LabelOf k := by
        intro q hq
        by_cases hqo : q.1 ∈ omit_fc04
        · exact Or.inl hqo
        · refine Or.inr (hinj q.1 ?_ ?_)
          · simp only [List.map_cons, List.mem_cons]
            exact Or.inr (List.mem_map_of_mem Prod.fst hq)
          · intro hqk
            exact hn (hqk ▸ List.mem_map_of_mem Prod.fst hq)
      rw [fc04_fold_preserve (fc04LabelOf k) rest _ hrest2]
      unfold fc04Update
      dsimp only
      rw [if_neg hk]
      exact lookupKey_setKey_self _ _ _
    · exact fc04_fold_lookup rest _ k v hrest hk
        (List.nodup_cons.1 hnodup).2
        (fun k2 hk2 => hinj k2 (by
          simp only [List.map_cons, List.mem_cons]
          exact Or.inr hk2))

lemma mem_fc04_raw (reads : Nat → Option Nat) (reg v : Nat)
    (h1 : reg ∈ fc04_polled) (h2 : reads reg = some v) :
    (sensorKey reg, v) ∈ fc04_raw reads := by
  unfold fc04_raw
  exact List.mem_filterMap.2 ⟨reg, h1, by rw [h2]; rfl⟩

lemma fc04_raw_keys_sublist (reads : Nat → Option Nat) :
    ∀ l : List Nat,
      ((l.filterMap fun reg => (reads reg).map fun v => (sensorKey reg, v)).map
          Prod.fst).Sublist (l.map sensorKey)
  | [] => by simp
  | reg :: rest => by
    cases h : reads reg with
    | none =>
      simp only [List.filterMap_cons, h, Option.map_none', List.map_cons]
      exact (fc04_raw_keys_sublist reads rest).cons _
    | some v =>
      simp only [List.filterMap_cons, h, Option.map_some', List.map_cons]
      exact (fc04_raw_keys_sublist reads rest).cons₂ _

lemma fc04_raw_keys_nodup (reads : Nat → Option Nat) :
    ((fc04_raw reads).map Prod.fst).Nodup :=
  List.Nodup.sublist (fc04_raw_keys_sublist reads fc04_polled)
    (by decide : (fc04_polled.map sensorKey).Nodup)

lemma fc04_raw_keys_mem (reads : Nat → Option Nat) (k : String)
    (hk : k ∈ (fc04_raw reads).map Prod.fst) :
    ∃ r ∈ fc04_polled, k = sensorKey r := by
  have := (fc04_raw_keys_sublist reads fc04_polled).subset hk
  rcases List.mem_map.1 this with ⟨r, hr, hrk⟩
  exact ⟨r, hr, hrk.symm⟩

/-! Projections of one tick of the main loop. -/

lemma tick_last_coil (s : LoopState) (e : TickEnv) :
    (tick s e).1.last_coil_update =
      if 13 ≤ e.now - s.last_coil_update then e.now else s.last_coil_update := by
  unfold tick
  dsimp only
  split_ifs <;> rfl

lemma tick_last_fc04 (s : LoopState) (e : TickEnv) :
    (tick s e).1.last_fc04_update =
      if 17 ≤ e.now - s.last_fc04_update then e.now else s.last_fc04_update := by
  unfold tick
  dsimp only
  split_ifs <;> rfl

lemma tick_last_misc (s : LoopState) (e : TickEnv) :
    (tick s e).1.last_misc_update =
      if 60 ≤ e.now - s.last_misc_update then e.now else s.last_misc_update := by
  unfold tick
  dsimp only
  split_ifs <;> rfl

lemma tick_last_coils (s : LoopState) (e : TickEnv) :
    (tick s e).1.last_coils =
      if 13 ≤ e.now - s.last_coil_update then sortByKey (read_coils e.coilResponse)
      else s.last_coils := by
  unfold tick
  dsimp only
  split_ifs <;> rfl

/-! Lemmas about the interval scheduler. -/

lemma schedTimes_head (interval : ℚ) :
    ∀ (ts : List ℚ) (last x : ℚ) (rest : List ℚ),
      schedTimes interval last ts = x :: rest → last + interval ≤ x
  | [], last, x, rest, h => by simp [schedTimes] at h
  | t :: ts, last, x, rest, h => by
    unfold schedTimes at h
    by_cases hc : interval ≤ t - last
    · rw [if_pos hc] at h
      injection h with h1 h2
      subst h1
      linarith
    · rw [if_neg hc] at h
      exact schedTimes_head interval ts last x rest h

lemma schedTimes_chain (interval : ℚ) :
    ∀ (ts : List ℚ) (last : ℚ),
      List.Chain' (fun a b => a + interval ≤ b) (schedTimes interval last ts)
  | [], last => by simp [schedTimes]
  | t :: ts, last => by
    unfold schedTimes
    by_cases hc : interval ≤ t - last
    · rw [if_pos hc]
      rw [List.chain'_cons']
      refine ⟨?_, schedTimes_chain interval ts t⟩
      intro b hb
      cases hh : schedTimes interval t ts with
      | nil => rw [hh] at hb; simp at hb
      | cons x rest =>
        rw [hh] at hb
        simp only [List.head?_cons, Option.mem_def, Option.some.injEq] at hb
        subst hb
        exact schedTimes_head interval ts t x rest hh
    · rw [if_neg hc]
      exact schedTimes_chain interval ts last

lemma coilFireTimes_eq (s : LoopState) (tr : List TickEnv) :
    coilFireTimes s tr = schedTimes 13 s.last_coil_update (tr.map TickEnv.now) := by
  induction tr generalizing s with
  | nil => rfl
  | cons e tr ih =>
    rw [List.map_cons]
    unfold coilFireTimes schedTimes
    by_cases h : 13 ≤ e.now - s.last_coil_update
    · rw [if_pos h, if_pos h, ih, tick_last_coil, if_pos h]
    · rw [if_neg h, if_neg h, ih, tick_last_coil, if_neg h]

lemma fc04FireTimes_eq (s : LoopState) (tr : List TickEnv) :
    fc04FireTimes s tr = schedTimes 17 s.last_fc04_update (tr.map TickEnv.now) := by
  induction tr generalizing s with
  | nil => rfl
  | cons e tr ih =>
    rw [List.map_cons]
    unfold fc04FireTimes schedTimes
    by_cases h : 17 ≤ e.now - s.last_fc04_update
    · rw [if_pos h, if_pos h, ih, tick_last_fc04, if_pos h]
    · rw [if_neg h, if_neg h, ih, tick_last_fc04, if_neg h]

lemma miscFireTimes_eq (s : LoopState) (tr : List TickEnv) :
    miscFireTimes s tr = schedTimes 60 s.last_misc_update (tr.map TickEnv.now) := by
  induction tr generalizing s with
  | nil => rfl
  | cons e tr ih =>
    rw [List.map_cons]
    unfold miscFireTimes schedTimes
    by_cases h : 60 ≤ e.now - s.last_misc_update
    · rw [if_pos h, if_pos h, ih, tick_last_misc, if_pos h]
    · rw [if_neg h, if_neg h, ih, tick_last_misc, if_neg h]

/-! Concrete scenario inputs used by counterexamples and witnesses. -/

/-- A loop state with one previously cached coil value and all timers at 0. -/
def cexState : LoopState :=
  ⟨0, 0, 0, [("Heating element", 1)], [], [], none⟩

/-- A tick at clock time 100 s in which every device transaction fails: the
coil response is a malformed single byte and every register/echo read is
absent. -/
def cexEnv : TickEnv :=
  ⟨100, some [0], fun _ => none, fun _ => none⟩

/-- Echo-read oracle for the C4 scenario: register 0xD0 answers 305,
register 0xA1 answers 42, everything else fails. -/
def echoScenario : Nat → Option Nat := fun r =>
  if r = 0xD0 then some 305 else if r = 0xA1 then some 42 else none

/-- FC04 oracle for the C7 scenario: register 0x06 answers raw 215. -/
def scenarioReads7 : Nat → Option Nat := fun r =>
  if r = 6 then some 215 else none

/-- FC04 oracle for the C8 scenario: energy words 0x25 ↦ 1, 0x26 ↦ 0x2345. -/
def scenarioReads8 : Nat → Option Nat := fun r =>
  if r = 0x25 then some 1 else if r = 0x26 then some 0x2345 else none

/-- Claim C1, counterexample: with a malformed coil response (single byte 0)
and a previously cached coil value, `read_coils` returns the empty mapping
and the poll step leaves the coil cache EMPTY — it does not equal the coil
mapping from before the call, contradicting the claim that previous cached
values are retained. -/
theorem C1_counterexample :
    coilReadFails (some [0]) ∧
    read_coils (some [0]) = [] ∧
    cexState.last_coils = [("Heating element", 1)] ∧
    (tick cexState cexEnv).1.last_coils = [] ∧
    (tick cexState cexEnv).1.last_coils ≠ cexState.last_coils := by
  have ht : (tick cexState cexEnv).1.last_coils = [] := by
    rw [tick_last_coils, if_pos (by norm_num [cexEnv, cexState])]
    rfl
  refine ⟨by decide, rfl, rfl, ht, ?_⟩
  rw [ht]
  decide

/-- Claim C1, amended: for every coil-read transaction whose response is
malformed (length < 3 or byte 0 ≠ 2) or whose underlying I/O fails,
`ReadCoils` returns the empty mapping, and the cache's coil mapping after the
enclosing poll step is the EMPTY mapping — the previous cached coil values
are discarded, not retained. -/
theorem C1_amended_thm (response : Option (List Nat)) (h : coilReadFails response) :
    read_coils response = [] ∧
    ∀ (s : LoopState) (e : TickEnv), e.coilResponse = response →
      13 ≤ e.now - s.last_coil_update → (tick s e).1.last_coils = [] := by
  have hrc : read_coils response = [] := by
    unfold coilReadFails at h
    cases response with
    | none => rfl
    | some resp =>
      simp only [read_coils]
      rw [if_pos h]
  refine ⟨hrc, ?_⟩
  intro s e he hint
  rw [tick_last_coils, if_pos hint, he, hrc]
  rfl

/-- Claim C1, witness for the amended theorem at concrete inputs: a short
frame of two bytes and the malformed single-byte tick scenario. -/
theorem C1_witness :
    read_coils (some [2, 9]) = [] ∧ (tick cexState cexEnv).1.last_coils = [] := by
  refine ⟨(C1_amended_thm (some [2, 9]) (by decide)).1, ?_⟩
  exact (C1_amended_thm (some [0]) (by decide)).2 cexState cexEnv rfl
    (by norm_num [cexEnv, cexState])

/-- Claim C2, counterexample: in a tick where every read fails (malformed
coil frame, all FC04 and echo reads absent), all three group timers still
advance from 0 to the tick time 100 — contradicting the claim that a failed
attempt does not advance the timer. -/
theorem C2_counterexample :
    coilReadFails cexEnv.coilResponse ∧
    cexEnv.reads = (fun _ => none) ∧
    cexEnv.echo = (fun _ => none) ∧
    cexState.last_coil_update = 0 ∧
    (tick cexState cexEnv).1.last_coil_update = 100 ∧
    (tick cexState cexEnv).1.last_fc04_update = 100 ∧
    (tick cexState cexEnv).1.last_misc_update = 100 ∧
    (tick cexState cexEnv).1.last_coil_update ≠ cexState.last_coil_update := by
  have h1 : (tick cexState cexEnv).1.last_coil_update = 100 := by
    rw [tick_last_coil, if_pos (by norm_num [cexEnv, cexState])]
    rfl
  have h2 : (tick cexState cexEnv).1.last_fc04_update = 100 := by
    rw [tick_last_fc04, if_pos (by norm_num [cexEnv, cexState])]
    rfl
  have h3 : (tick cexState cexEnv).1.last_misc_update = 100 := by
    rw [tick_last_misc, if_pos (by norm_num [cexEnv, cexState])]
    rfl
  refine ⟨by decide, rfl, rfl, rfl, h1, h2, h3, ?_⟩
  rw [h1]
  norm_num [cexState]

/-- Claim C2, amended: each group's timestamp is set to the tick's clock
reading exactly when that group's interval check passes — regardless of
whether the group's reads succeed or fail — and left unchanged otherwise.
A failed attempt therefore waits a full interval before the retry, instead
of being retried on the next tick. -/
theorem C2_amended_thm (s : LoopState) (e : TickEnv) :
    ((tick s e).1.last_coil_update =
      if 13 ≤ e.now - s.last_coil_update then e.now else s.last_coil_update) ∧
    ((tick s e).1.last_fc04_update =
      if 17 ≤ e.now - s.last_fc04_update then e.now else s.last_fc04_update) ∧
    ((tick s e).1.last_misc_update =
      if 60 ≤ e.now - s.last_misc_update then e.now else s.last_misc_update) :=
  ⟨tick_last_coil s e, tick_last_fc04 s e, tick_last_misc s e⟩

/-- Claim C6: the publisher transmits iff the assembled snapshot differs by
structural equality from the last published state (in particular it always
transmits on first run, when nothing was published yet); afterwards the last
published state is the snapshot, and presenting the same snapshot again does
not transmit. -/
theorem C6_thm (last : Option Payload) (p : Payload) :
    ((publishStep last p).1 = true ↔ some p ≠ last) ∧
    (publishStep last p).2 = some p ∧
    (publishStep none p).1 = true ∧
    (publishStep (publishStep last p).2 p).1 = false := by
  by_cases h : some p = last
  · subst h
    simp [publishStep]
  · simp [publishStep, h]

/-- Claim C9: over every trace of the loop, each group's firing times depend
only on the tick clock readings and that group's own timer (independence of
the other groups' phase): they equal the generic interval scheduler with
interval 13, 17 and 60 respectively; and the firing times of the interval
scheduler are always separated by at least the interval. -/
theorem C9_thm :
    (∀ (s : LoopState) (tr : List TickEnv),
      coilFireTimes s tr = schedTimes 13 s.last_coil_update (tr.map TickEnv.now)) ∧
    (∀ (s : LoopState) (tr : List TickEnv),
      fc04FireTimes s tr = schedTimes 17 s.last_fc04_update (tr.map TickEnv.now)) ∧
    (∀ (s : LoopState) (tr : List TickEnv),
      miscFireTimes s tr = schedTimes 60 s.last_misc_update (tr.map TickEnv.now)) ∧
    (∀ (interval last : ℚ) (ts : List ℚ),
      List.Chain' (fun a b => a + interval ≤ b) (schedTimes interval last ts)) :=
  ⟨coilFireTimes_eq, fc04FireTimes_eq, miscFireTimes_eq,
   fun interval last ts => schedTimes_chain interval ts last⟩

/-- Claim C3: for every well-formed coil-read response (length ≥ 3, byte 0
equal to the byte count 2), the mask is reassembled low byte first
(`byte2 << 8 | byte1`), the decoded value stored under schema index `i`'s
label is bit `i` of that mask, and every key of the result is the label of
some schema coil index different from 13. -/
theorem C3_thm (resp : List Nat) (i : Nat) (name : String)
    (h3 : 3 ≤ resp.length) (h0 : resp.getD 0 0 = 2)
    (hmem : (i, name) ∈ coil_names) :
    lookupKey name (read_coils (some resp))
      = some (((((resp.getD 2 0) <<< 8) ||| resp.getD 1 0) >>> i) &&& 1) ∧
    ∀ kv ∈ read_coils (some resp), ∃ j, j ≠ 13 ∧ (j, kv.1) ∈ coil_names := by
  have hrc := read_coils_wf resp h3 h0
  constructor
  · rw [hrc]
    fin_cases hmem <;> rfl
  · rw [hrc]
    intro kv hkv
    simp only [List.mem_cons, List.not_mem_nil, or_false] at hkv
    rcases hkv with rfl | rfl | rfl | rfl | rfl | rfl | rfl | rfl | rfl | rfl | rfl | rfl <;>
      dsimp only
    · exact ⟨1, by decide, by decide⟩
    · exact ⟨11, by decide, by decide⟩
    · exact ⟨10, by decide, by decide⟩
    · exact ⟨8, by decide, by decide⟩
    · exact ⟨12, by decide, by decide⟩
    · exact ⟨4, by decide, by decide⟩
    · exact ⟨5, by decide, by decide⟩
    · exact ⟨3, by decide, by decide⟩
    · exact ⟨9, by decide, by decide⟩
    · exact ⟨0, by decide, by decide⟩
    · exact ⟨2, by decide, by decide⟩
    · exact ⟨14, by decide, by decide⟩

/-- Claim C3, witness: on the concrete frame `[2, 0x34, 0x12]` the mask is
`0x1234` and the value stored under coil 3's label is bit 3 of it, namely 0. -/
theorem C3_witness :
    lookupKey "Heating element" (read_coils (some [2, 0x34, 0x12])) = some 0 := by
  have h := (C3_thm [2, 0x34, 0x12] 3 "Heating element"
    (by decide) (by decide) (by decide)).1
  exact h.trans (by decide)

/-- Claim C10: for every well-formed coil-read response, the keys of the
result are exactly the 12 schema coil labels (label-sorted, a permutation of
the schema's label column — no label is conditionally absent), and every
stored value is 0 or 1. -/
theorem C10_thm (resp : List Nat) (h3 : 3 ≤ resp.length) (h0 : resp.getD 0 0 = 2) :
    (read_coils (some resp)).map Prod.fst =
      ["3-Way shunt VV open/close", "3-way shunt CV close", "3-way shunt CV open",
       "4-way valve defrost", "Circ. pump CV", "Circ. pump warm side",
       "El-tracing CV/drain", "Heating element", "Liquid injection solenoid valve",
       "Soft starter Compressor", "Start/stop expansion valve", "Sum alarm failure"] ∧
    ((read_coils (some resp)).map Prod.fst).Perm (coil_names.map Prod.snd) ∧
    ∀ kv ∈ read_coils (some resp), kv.2 = 0 ∨ kv.2 = 1 := by
  have hrc := read_coils_wf resp h3 h0
  refine ⟨by rw [hrc]; rfl, ?_, ?_⟩
  · rw [hrc]
    show (["3-Way shunt VV open/close", "3-way shunt CV close", "3-way shunt CV open",
       "4-way valve defrost", "Circ. pump CV", "Circ. pump warm side",
       "El-tracing CV/drain", "Heating element", "Liquid injection solenoid valve",
       "Soft starter Compressor", "Start/stop expansion valve",
       "Sum alarm failure"] : List String).Perm (coil_names.map Prod.snd)
    decide
  rw [hrc]
  intro kv hkv
  simp only [List.mem_cons, List.not_mem_nil, or_false] at hkv
  rcases hkv with rfl | rfl | rfl | rfl | rfl | rfl | rfl | rfl | rfl | rfl | rfl | rfl <;>
    exact coilBit_le_one resp _

/-- Claim C10, witness: concrete frame `[2, 5, 1]`. -/
theorem C10_witness :
    (read_coils (some [2, 5, 1])).map Prod.fst =
      ["3-Way shunt VV open/close", "3-way shunt CV close", "3-way shunt CV open",
       "4-way valve defrost", "Circ. pump CV", "Circ. pump warm side",
       "El-tracing CV/drain", "Heating element", "Liquid injection solenoid valve",
       "Soft starter Compressor", "Start/stop expansion valve", "Sum alarm failure"] :=
  (C10_thm [2, 5, 1] (by decide) (by decide)).1

/-- Claim C4: the echo read issues a function-code-6 frame whose register
field decodes to the target index and whose value field decodes to 0x0000;
parsing an echoed reply returns the reply's value word; and the value stored
by the slow group for an echo register applies the adjustment table entry
(`round(value * multiplier, decimals)`) when one exists and stores the raw
word unchanged otherwise. -/
theorem C4_thm (register r v : Nat) (hreg : register < 65536) (hv : v < 65536)
    (reads echo : Nat → Option Nat) (inputs writes : List (String × ℚ))
    (reg : Nat) (label : String) (w : Nat)
    (hmem : (reg, label) ∈ fc06_registers) (hecho : echo reg = some w) :
    (fc06Request register).1 = 6 ∧
    unpack16at (fc06Request register).2 0 = register ∧
    unpack16at (fc06Request register).2 2 = 0 ∧
    read_via_fc06 (some (pack16 r ++ pack16 v)) = some v ∧
    lookupKey label (miscStep reads echo inputs writes).2 =
      some (match lookupKey reg fc06_adjustments with
            | some a => roundTo ((w : ℚ) * a.1) a.2
            | none => (w : ℚ)) := by
  refine ⟨rfl, ?_, rfl, ?_, ?_⟩
  · have h0eq : unpack16at (fc06Request register).2 0
        = 256 * (register / 256 % 256) + register % 256 := rfl
    rw [h0eq]
    omega
  · have h4eq : read_via_fc06 (some (pack16 r ++ pack16 v))
        = some (256 * (v / 256 % 256) + v % 256) := rfl
    rw [h4eq]
    exact congrArg some (by omega)
  · have h := fc06_fold_lookup echo fc06_registers writes reg label w hmem
      (by decide) hecho
    unfold miscStep
    dsimp only
    exact h

/-- Claim C4, witness: echo-read scenario with register 0xD0 returning raw
305 (stored as 30.5 via the (0.1, 1) adjustment) and register 0xA1 returning
raw 42 (stored unchanged); the echoed-reply parser recovers 305 from the
packed reply frame. -/
theorem C4_witness :
    lookupKey "curve_temp"
        (miscStep (fun _ => none) echoScenario [] []).2 = some (30.5 : ℚ) ∧
    lookupKey "comp_hours"
        (miscStep (fun _ => none) echoScenario [] []).2 = some (42 : ℚ) ∧
    read_via_fc06 (some (pack16 0xD0 ++ pack16 305)) = some 305 := by
  have hD0 := C4_thm 0xD0 0xD0 305 (by norm_num) (by norm_num)
    (fun _ => none) echoScenario [] [] 0xD0 "curve_temp" 305 (by decide) rfl
  have hA1 := C4_thm 0xA1 0xA1 42 (by norm_num) (by norm_num)
    (fun _ => none) echoScenario [] [] 0xA1 "comp_hours" 42 (by decide) rfl
  refine ⟨?_, ?_, hD0.2.2.2.1⟩
  · refine hD0.2.2.2.2.trans (congrArg some ?_)
    show roundTo (((305 : Nat) : ℚ) * 0.1) 1 = (30.5 : ℚ)
    rw [roundTo_eq _ _ 305 (by norm_num)]
    norm_num
  · refine hA1.2.2.2.2.trans (congrArg some ?_)
    show ((42 : Nat) : ℚ) = (42 : ℚ)
    norm_num

/-- Claim C5: an inbound message on an unmapped channel causes no write and
no reported error; a mapped channel whose payload does not parse as an
integer reports the failure and performs no write; a mapped channel with an
integer payload performs exactly one write of `int(payload) * scale`; in
particular payload "22" on dvi/command/vvsetpoint writes value 22 to
register 0x10B. -/
theorem C5_thm (topic payload : String) :
    (lookupKey topic command_map = none → on_message topic payload = ⟨[], false⟩) ∧
    (∀ cfg, lookupKey topic command_map = some cfg →
      parsePyInt (pyStrip payload) = none → on_message topic payload = ⟨[], true⟩) ∧
    (∀ cfg v, lookupKey topic command_map = some cfg →
      parsePyInt (pyStrip payload) = some v →
      on_message topic payload = ⟨[⟨cfg.1, v * cfg.2⟩], false⟩) ∧
    on_message "dvi/command/vvsetpoint" "22" = ⟨[⟨0x10B, 22⟩], false⟩ ∧
    on_message "dvi/command/unknown" "22" = ⟨[], false⟩ := by
  refine ⟨?_, ?_, ?_, by decide, by decide⟩
  · intro h
    unfold on_message
    dsimp only
    rw [h]
  · intro cfg h hp
    unfold on_message
    dsimp only
    rw [h, hp]
  · intro cfg v h hp
    unfold on_message
    dsimp only
    rw [h, hp]

/-- Claim C5, witness: the three dispatcher paths at concrete messages. -/
theorem C5_witness :
    on_message "dvi/command/vvsetpoint" "22" = ⟨[⟨0x10B, 22⟩], false⟩ ∧
    on_message "dvi/command/unknown" "22" = ⟨[], false⟩ ∧
    on_message "dvi/command/vvsetpoint" "abc" = ⟨[], true⟩ := by
  refine ⟨?_, ?_, ?_⟩
  · exact (C5_thm "dvi/command/vvsetpoint" "22").2.2.1 (0x10B, 1) 22
      (by decide) (by decide)
  · exact (C5_thm "dvi/command/unknown" "22").1 (by decide)
  · exact (C5_thm "dvi/command/vvsetpoint" "abc").2.1 (0x10B, 1)
      (by decide) (by decide)

/-! Decided schema facts used by claim C7. -/

lemma sensorLabel_inj : ∀ r2 ∈ fc04_polled, ∀ r ∈ fc04_polled,
    sensorKey r2 ≠ sensorKey r →
    fc04LabelOf (sensorKey r2) ≠ fc04LabelOf (sensorKey r) := by decide

lemma sensorLabel_ne_power : ∀ r ∈ fc04_polled,
    fc04LabelOf (sensorKey r) ≠ "em23_power" := by decide

lemma omit_polled_facts : ∀ r ∈ ([4, 8, 9, 10, 13, 14] : List Nat),
    r ∈ fc04_polled ∧ sensorKey r ∈ omit_fc04 := by decide

lemma omitLabel_ne : ∀ r ∈ ([4, 8, 9, 10, 13, 14] : List Nat),
    ∀ r2 ∈ fc04_polled, sensorKey r2 ∉ omit_fc04 →
    fc04LabelOf (sensorKey r2) ≠ fc04LabelOf (sensorKey r) := by decide

/-- Claim C7: every successfully read, non-omitted fast-group register is
cached under its label as `round(raw * 0.1, 1)`; the six omitted sensor
indices are all still polled (they are in the polled range) but the cache
entry under their label is exactly what it was before the cycle — they never
get an entry. -/
theorem C7_thm (reads : Nat → Option Nat) (inputs : List (String × ℚ))
    (reg v : Nat) (h1 : reg ∈ fc04_polled) (h2 : sensorKey reg ∉ omit_fc04)
    (h3 : reads reg = some v) :
    lookupKey (fc04LabelOf (sensorKey reg)) (fc04Step reads inputs)
      = some (roundTo ((v : ℚ) * 0.1) 1) ∧
    (∀ r ∈ ([4, 8, 9, 10, 13, 14] : List Nat),
      r ∈ fc04_polled ∧ sensorKey r ∈ omit_fc04) ∧
    (∀ r ∈ ([4, 8, 9, 10, 13, 14] : List Nat),
      lookupKey (fc04LabelOf (sensorKey r)) (fc04Step reads inputs)
        = lookupKey (fc04LabelOf (sensorKey r)) inputs) := by
  have hfold : lookupKey (fc04LabelOf (sensorKey reg))
      ((fc04_raw reads).foldl fc04Update inputs)
      = some (roundTo ((v : ℚ) * 0.1) 1) := by
    apply fc04_fold_lookup (fc04_raw reads) inputs (sensorKey reg) v
      (mem_fc04_raw reads reg v h1 h3) h2 (fc04_raw_keys_nodup reads)
    intro k2 hk2 hne
    rcases fc04_raw_keys_mem reads k2 hk2 with ⟨r2, hr2, hk2eq⟩
    subst hk2eq
    exact sensorLabel_inj r2 hr2 reg h1 hne
  refine ⟨?_, omit_polled_facts, ?_⟩
  · unfold fc04Step
    dsimp only
    cases hp : reads 0x24 with
    | none => exact hfold
    | some power =>
      rw [lookupKey_setKey_ne _ _ _ _ (Ne.symm (sensorLabel_ne_power reg h1))]
      exact hfold
  · intro r hr
    have hpres : ∀ kv ∈ fc04_raw reads,
        kv.1 ∈ omit_fc04 ∨ fc04LabelOf kv.1 ≠ fc04LabelOf (sensorKey r) := by
      intro kv hkv
      rcases fc04_raw_keys_mem reads kv.1 (List.mem_map_of_mem Prod.fst hkv)
        with ⟨r2, hr2, heq⟩
      rw [heq]
      by_cases ho : sensorKey r2 ∈ omit_fc04
      · exact Or.inl ho
      · exact Or.inr (omitLabel_ne r hr r2 hr2 ho)
    have hfoldpres := fc04_fold_preserve (fc04LabelOf (sensorKey r))
      (fc04_raw reads) inputs hpres
    unfold fc04Step
    dsimp only
    cases hp : reads 0x24 with
    | none => exact hfoldpres
    | some power =>
      rw [lookupKey_setKey_ne _ _ _ _
        (Ne.symm (sensorLabel_ne_power r (omit_polled_facts r hr).1))]
      exact hfoldpres

/-- Claim C7, witness: register 0x06 returning raw 215 is cached under
"Evaporator" as 21.5. -/
theorem C7_witness :
    lookupKey "Evaporator" (fc04Step scenarioReads7 []) = some (21.5 : ℚ) := by
  have h := (C7_thm scenarioReads7 [] 6 215 (by decide) (by decide) rfl).1
  have hval : roundTo (((215 : Nat) : ℚ) * 0.1) 1 = (21.5 : ℚ) := by
    rw [roundTo_eq _ _ 215 (by norm_num)]
    norm_num
  exact h.trans (congrArg some hval)

/-- Claim C8: when both energy words read successfully the cached value under
"em23_energy" is `round(((msw << 16) + lsw) * 0.1, 1)` (high word first);
when either word fails the inputs cache is left entirely unchanged by the
energy stage. -/
theorem C8_thm (reads echo : Nat → Option Nat) (inputs writes : List (String × ℚ))
    (msw lsw : Nat) (h25 : reads 0x25 = some msw) (h26 : reads 0x26 = some lsw) :
    lookupKey "em23_energy" (miscStep reads echo inputs writes).1
      = some (roundTo ((((msw <<< 16) + lsw : Nat) : ℚ) * 0.1) 1) ∧
    ∀ reads2 : Nat → Option Nat, (reads2 0x25 = none ∨ reads2 0x26 = none) →
      (miscStep reads2 echo inputs writes).1 = inputs := by
  constructor
  · unfold miscStep
    dsimp only
    rw [h25, h26]
    exact lookupKey_setKey_self _ _ _
  · intro reads2 h
    unfold miscStep
    dsimp only
    rcases h with h | h
    · rw [h]
    · cases hx : reads2 0x25 with
      | none => rfl
      | some m => rw [h]

/-- Claim C8, witness: high word 1 and low word 0x2345 combine to raw 74565
and are cached as 7456.5. -/
theorem C8_witness :
    ((1 <<< 16) + 0x2345 : Nat) = 74565 ∧
    lookupKey "em23_energy"
      (miscStep scenarioReads8 (fun _ => none) [] []).1 = some (7456.5 : ℚ) := by
  have hn : ((1 <<< 16) + 0x2345 : Nat) = 74565 := by decide
  have h := (C8_thm scenarioReads8 (fun _ => none) [] [] 1 0x2345 rfl rfl).1
  rw [hn] at h
  have hval : roundTo (((74565 : Nat) : ℚ) * 0.1) 1 = (7456.5 : ℚ) := by
    rw [roundTo_eq _ _ 74565 (by norm_num)]
    norm_num
  exact ⟨hn, h.trans (congrArg some hval)⟩

end DVIBridge
